import Mathlib

/-!
Shallow embedding of the consensus core of the vulkan-core repository
(src/core/block.c, src/core/merkle.c, src/transaction.h), together with
theorems checking the natural-language specification against it.

Bytes are modelled as `Nat` (kept below 256 where it matters), byte strings
as `List Nat`, machine integers as `Nat` with explicit bounds, and fallible
operations as `Option`.  Functions of the repository that live in files not
present under src/ (the buffer codec, transaction.c, pow.c, the parameter
constants) are modelled from the specification; each such definition carries
a doc comment starting with `Modelled from the spec:`.
-/

namespace Vulkan

/-! ### Primitive codec

Modelled from the spec: `common/buffer.c` / `common/buffer_iterator.c` are not
under src/.  Integers are little-endian fixed width; variable-length byte
fields carry a 4-byte little-endian length prefix (spec section 4.2). -/

/-- Modelled from the spec: little-endian serialization of a `u32`
(`buffer_write_uint32` of the missing `common/buffer.c`). -/
def serialize_uint32 (n : Nat) : List Nat :=
  [n % 256, n / 256 % 256, n / 256 ^ 2 % 256, n / 256 ^ 3 % 256]

/-- Modelled from the spec: little-endian serialization of a `u64`
(`buffer_write_uint64` of the missing `common/buffer.c`). -/
def serialize_uint64 (n : Nat) : List Nat :=
  [n % 256, n / 256 % 256, n / 256 ^ 2 % 256, n / 256 ^ 3 % 256,
   n / 256 ^ 4 % 256, n / 256 ^ 5 % 256, n / 256 ^ 6 % 256, n / 256 ^ 7 % 256]

/-- Modelled from the spec: `buffer_write_bytes32(buffer, bytes, size)` of the
missing `common/buffer.c` writes a 4-byte little-endian length prefix holding
`size` followed by `size` bytes of `bytes` (spec section 4.2). -/
def buffer_write_bytes32 (bytes : List Nat) (size : Nat) : List Nat :=
  serialize_uint32 size ++ bytes.take size

/-- Modelled from the spec: `buffer_read_uint32` of the missing
`common/buffer_iterator.c`; fails on short input. -/
def buffer_read_uint32 : List Nat → Option (Nat × List Nat)
  | b0 :: b1 :: b2 :: b3 :: rest =>
      some (b0 + b1 * 256 + b2 * 256 ^ 2 + b3 * 256 ^ 3, rest)
  | _ => none

/-- Modelled from the spec: `buffer_read_uint64` of the missing
`common/buffer_iterator.c`; fails on short input. -/
def buffer_read_uint64 : List Nat → Option (Nat × List Nat)
  | b0 :: b1 :: b2 :: b3 :: b4 :: b5 :: b6 :: b7 :: rest =>
      some (b0 + b1 * 256 + b2 * 256 ^ 2 + b3 * 256 ^ 3 + b4 * 256 ^ 4 +
            b5 * 256 ^ 5 + b6 * 256 ^ 6 + b7 * 256 ^ 7, rest)
  | _ => none

/-- Modelled from the spec: reading `n` raw bytes; fails when fewer than `n`
bytes remain (spec section 4.2: decoding fails on short input). -/
def buffer_read_bytes (n : Nat) (l : List Nat) : Option (List Nat × List Nat) :=
  if n ≤ l.length then some (l.take n, l.drop n) else none

/-- Modelled from the spec: `buffer_read_bytes32` of the missing
`common/buffer_iterator.c` reads a 4-byte little-endian length prefix and then
that many bytes; fails when the length prefix exceeds the remaining buffer. -/
def buffer_read_bytes32 (l : List Nat) : Option (List Nat × List Nat) :=
  (buffer_read_uint32 l).bind fun p => buffer_read_bytes p.1 p.2

/-! ### Data model (src/transaction.h) -/

/-- Embeds `input_transaction_t` of src/transaction.h: the header part
(`transaction` = previous tx hash, `txout_index`) plus the witness part
(`signature`, `public_key`).  The fixed C array sizes (32/4/64/32 bytes) are
carried as hypotheses where they matter. -/
structure InputTransaction where
  transaction : List Nat
  txout_index : Nat
  signature : List Nat
  public_key : List Nat
deriving DecidableEq, Inhabited

/-- Embeds `output_transaction_t` of src/transaction.h. -/
structure OutputTransaction where
  amount : Nat
  address : List Nat
deriving DecidableEq, Inhabited

/-- Embeds `transaction_t` of src/transaction.h.  The C struct stores `txin_count`
and `txout_count` (each `uint8_t`) alongside the arrays; the counts always
equal the array lengths by construction, so the embedding carries the lists
only and uses their lengths for the counts. -/
structure Transaction where
  id : List Nat
  txins : List InputTransaction
  txouts : List OutputTransaction
deriving DecidableEq, Inhabited

/-- Embeds `block_t` of block.h (declared in src/core/block.c's header, used
throughout src/core/block.c).  `transaction_count` is a separate field from
the `transactions` array, exactly as in C, because `deserialize_block` sets
the count without materialising any transactions. -/
structure Block where
  version : Nat
  previous_hash : List Nat
  hash : List Nat
  timestamp : Nat
  nonce : Nat
  bits : Nat
  cumulative_emission : Nat
  merkle_root : List Nat
  transaction_count : Nat
  transactions : List Transaction
deriving DecidableEq, Inhabited

/-- Constant `HASH_SIZE` (spec section 6: `HASH_SIZE = 32`). -/
def HASH_SIZE : Nat := 32

/-- Modelled from the spec: `zero_tx_hash` (declared extern in
src/transaction.h, defined in the missing transaction.c) is the 32-byte zero
hash, the sentinel meaning "no previous transaction" (spec section 3). -/
def zero_tx_hash : List Nat := List.replicate 32 0

/-- Modelled from the spec: `compare_hash` (missing `crypto/cryptoutil.c`)
compares two 32-byte hashes for byte equality. -/
def compare_hash (a b : List Nat) : Bool :=
  decide (a = b)

/-- Modelled from the spec: `MAX_FUTURE_BLOCK_TIME` (missing parameters.h);
the spec gives a default of 2 hours, and section 8 scenario 6 confirms the
value 7200 seconds. -/
def MAX_FUTURE_BLOCK_TIME : Nat := 60 * 60 * 2

/-- Modelled from the spec: `BLOCK_HEADER_SIZE` (missing block.h).  The spec
states 92, but its own field list for the header preimage — `version (u32),
timestamp (u32), nonce (u32), bits (u32), cumulative_emission (u64),
previous_hash (32B), merkle_root (32B)` — and the writes performed by
`serialize_block_header` in src/core/block.c total 4+4+4+4+8+32+32 = 88
bytes.  The constant is taken as the length actually written, so that
`compute_block_hash`'s copy of `BLOCK_HEADER_SIZE` bytes out of the
serialization buffer is meaningful. -/
def BLOCK_HEADER_SIZE : Nat := 88

/-- Consensus-engine parameters and environment.  These stand for the pieces
the core consults but whose definitions are not under src/: `H` is
`crypto_hash_sha256d` (missing crypto/sha256d.c), `verify` is libsodium's
`crypto_sign_verify_detached` interpreted as a Bool (signature, message,
public key), `now` is `get_current_time()` (missing common/util.c),
`maxBlockSize` is `MAX_BLOCK_SIZE` and `maxTarget` the maximum proof-of-work
target (both missing parameters.h; the spec names them but gives no values). -/
structure Params where
  H : List Nat → List Nat
  verify : List Nat → List Nat → List Nat → Bool
  now : Nat
  maxBlockSize : Nat
  maxTarget : Nat

/-! ### Transaction model

transaction.c is not under src/ (only its header src/transaction.h is), so
the operations below are modelled from spec sections 4.2 and 4.3. -/

/-- Modelled from the spec: a TxIn is a coinbase input iff its previous txid
is the zero hash and its `txout_index` is the sentinel `0xFFFFFFFF`
(spec section 3). -/
def is_coinbase_txin (txin : InputTransaction) : Bool :=
  compare_hash txin.transaction zero_tx_hash && decide (txin.txout_index = 0xFFFFFFFF)

/-- Modelled from the spec: `is_coinbase_tx` (a.k.a. `is_generation_tx`,
declared in src/transaction.h, defined in the missing transaction.c): a
transaction is a coinbase iff it has exactly one TxIn and that TxIn is a
coinbase input (spec section 3). -/
def is_coinbase_tx (tx : Transaction) : Bool :=
  match tx.txins with
  | [txin] => is_coinbase_txin txin
  | _ => false

/-- Modelled from the spec: `get_txin_header` (missing transaction.c):
`prev_txid (32B) ++ prev_vout (u32 LE)` (spec section 4.2).  The C memcpy
copies exactly 32 bytes of the previous txid. -/
def get_txin_header (txin : InputTransaction) : List Nat :=
  txin.transaction.take 32 ++ serialize_uint32 txin.txout_index

/-- Modelled from the spec: `get_txout_header` (missing transaction.c):
`amount (u64 LE) ++ address` with the address not length-prefixed
(spec section 4.2). -/
def get_txout_header (txout : OutputTransaction) : List Nat :=
  serialize_uint64 txout.amount ++ txout.address

/-- Modelled from the spec: `get_tx_sign_header` (missing transaction.c):
the concatenation of every TxIn header followed by every TxOut header, in
list order (spec section 4.2).  Signatures and public keys are not part of
it. -/
def get_tx_sign_header (tx : Transaction) : List Nat :=
  (tx.txins.map get_txin_header).flatten ++ (tx.txouts.map get_txout_header).flatten

/-- Modelled from the spec: `compute_tx_id` (missing transaction.c) is
`sha256d` of the transaction sign preimage (spec section 4.3). -/
def compute_tx_id (p : Params) (tx : Transaction) : List Nat :=
  p.H (get_tx_sign_header tx)

/-- Computes the `(prev_txid, prev_vout)` outpoint referenced by an input. -/
def txin_outpoint (txin : InputTransaction) : List Nat × Nat :=
  (txin.transaction, txin.txout_index)

/-- Modelled from the spec: `valid_transaction` (missing transaction.c)
returns true iff (1) at least one input and one output, (2) the stored id
equals `compute_tx_id`, (3) every output amount is positive, (4) the sum of
output amounts does not overflow u64, (5) for a non-coinbase transaction
every input's signature verifies under its public key over the sign
preimage, and (6) for a non-coinbase transaction no two inputs share an
outpoint (spec section 4.3). -/
def valid_transaction (p : Params) (tx : Transaction) : Bool :=
  decide (1 ≤ tx.txins.length) && decide (1 ≤ tx.txouts.length) &&
  compare_hash (compute_tx_id p tx) tx.id &&
  tx.txouts.all (fun txout => decide (0 < txout.amount)) &&
  decide ((tx.txouts.map OutputTransaction.amount).sum < 2 ^ 64) &&
  (is_coinbase_tx tx ||
    tx.txins.all (fun txin => p.verify txin.signature (get_tx_sign_header tx) txin.public_key)) &&
  (is_coinbase_tx tx || decide ((tx.txins.map txin_outpoint).Nodup))

/-- Modelled from the spec: `validate_txin_signature` (missing
transaction.c) verifies one input's signature over the transaction sign
preimage with libsodium, which returns 0 on success and nonzero on failure. -/
def validate_txin_signature (p : Params) (tx : Transaction) (txin : InputTransaction) : Nat :=
  if p.verify txin.signature (get_tx_sign_header tx) txin.public_key then 0 else 1

/-- Modelled from the spec: `validate_tx_signatures` (missing
transaction.c): the witness bytes of a coinbase transaction are ignored by
validation (spec sections 3 and 4.3 rule 5); for a non-coinbase transaction
every input's signature is checked.  Follows the libsodium error-code
convention of its per-input callee: 0 when every signature verifies, 1
otherwise. -/
def validate_tx_signatures (p : Params) (tx : Transaction) : Nat :=
  if is_coinbase_tx tx then 0
  else if tx.txins.all (fun txin => validate_txin_signature p tx txin = 0) then 0 else 1

/-- Modelled from the spec: `get_tx_header_size` (missing transaction.c) is
the serialized size of a transaction per spec section 4.2:
`id` length-prefixed 32B (36) + `txin_count` u8 (1) + `txout_count` u8 (1) +
per TxIn `prev_txid` lp 32B (36) + `prev_vout` (4) + `signature` lp 64B (68)
+ `public_key` lp 32B (36) = 144, and per TxOut `amount` (8) + address
length-prefixed (4 + length). -/
def get_tx_header_size (tx : Transaction) : Nat :=
  36 + 1 + 1 + 144 * tx.txins.length +
    (tx.txouts.map (fun txout => 12 + txout.address.length)).sum

/-- Modelled from the spec: `compare_transaction` (missing transaction.c)
compares two transactions field by field. -/
def compare_transaction (tx other_tx : Transaction) : Bool :=
  decide (tx = other_tx)

/-! ### Proof of work

pow.c is not under src/; modelled from spec section 4.5. -/

/-- Reads a 32-byte hash interpreted as a big-endian 256-bit integer. -/
def hash_to_nat (hash : List Nat) : Nat :=
  hash.foldl (fun acc b => acc * 256 + b) 0

/-- Modelled from the spec: `check_proof_of_work` (missing pow.c).  The
compact `bits` value encodes the target as `mantissa * 256 ^ (exponent - 3)`
with `exponent = bits >> 24` and `mantissa = bits & 0x007FFFFF`; the high
bit of the mantissa (`0x00800000`) signals a negative target and is invalid;
the target is clamped to the network's maximum target; the hash read as a
big-endian 256-bit integer must be at most the target (spec section 4.5). -/
def check_proof_of_work (maxTarget : Nat) (hash : List Nat) (bits : Nat) : Bool :=
  let exponent := bits / 2 ^ 24
  let mantissa := bits % 2 ^ 24 % 2 ^ 23
  if bits / 2 ^ 23 % 2 = 1 then false
  else
    let target := min (mantissa * 256 ^ (exponent - 3)) maxTarget
    decide (hash_to_nat hash ≤ target)

/-! ### Merkle engine (src/core/merkle.c) -/

/-- Embeds `merkle_node_t`: a 32-byte hash plus left/right child pointers (NULL for
leaves). -/
inductive MerkleNode where
  | mk (hash : List Nat) (left : Option MerkleNode) (right : Option MerkleNode)

/-- Accessor for the `hash` field of a `merkle_node_t`. -/
def MerkleNode.hash : MerkleNode → List Nat
  | .mk h _ _ => h

/-- Embeds `construct_merkle_node` of src/core/merkle.c: the parent's hash is
`sha256d(left.hash ++ right.hash)` and both children are retained. -/
def construct_merkle_node (H : List Nat → List Nat) (left right : MerkleNode) : MerkleNode :=
  .mk (H (left.hash ++ right.hash)) (some left) (some right)

/-- Embeds `construct_merkle_leaves_from_hashes` of src/core/merkle.c: each hash
becomes a leaf node whose `hash` field is the hash itself and whose children
are NULL. -/
def construct_merkle_leaves_from_hashes (hashes : List (List Nat)) : List MerkleNode :=
  hashes.map (fun h => MerkleNode.mk h none none)

/-- Embeds `collapse_merkle_nodes` of src/core/merkle.c: adjacent nodes are paired
left to right; when the count is odd the final node is paired with itself. -/
def collapse_merkle_nodes (H : List Nat → List Nat) : List MerkleNode → List MerkleNode
  | a :: b :: rest => construct_merkle_node H a b :: collapse_merkle_nodes H rest
  | [a] => [construct_merkle_node H a a]
  | [] => []

/-- Embeds the `while (num_of_nodes > 1)` loop of
`construct_merkle_tree_from_leaves`.  The fuel argument bounds the number of
loop iterations; each pass at least halves a list of two or more nodes, so
fuel equal to the initial node count always suffices (see
`collapse_iter_length_le_one`). -/
def collapse_iter (H : List Nat → List Nat) : Nat → List MerkleNode → List MerkleNode
  | 0, nodes => nodes
  | fuel + 1, nodes =>
    if nodes.length > 1 then collapse_iter H fuel (collapse_merkle_nodes H nodes) else nodes

/-- Embeds `construct_merkle_tree_from_leaves` of src/core/merkle.c: fails (returns
NULL) on an empty input, otherwise builds leaves and collapses levels until
one node remains; the tree is represented by its root node. -/
def construct_merkle_tree_from_leaves (H : List Nat → List Nat)
    (hashes : List (List Nat)) : Option MerkleNode :=
  if hashes.length < 1 then none
  else (collapse_iter H hashes.length (construct_merkle_leaves_from_hashes hashes)).head?

/-! ### Block validator and codec (src/core/block.c) -/

/-- Embeds `valid_block_timestamp` of src/core/block.c:
`block->timestamp <= get_current_time() + MAX_FUTURE_BLOCK_TIME`. -/
def valid_block_timestamp (p : Params) (block : Block) : Bool :=
  decide (block.timestamp ≤ p.now + MAX_FUTURE_BLOCK_TIME)

/-- Embeds `serialize_block_header` of src/core/block.c: `version (u32),
timestamp (u32), nonce (u32), bits (u32), cumulative_emission (u64),
previous_hash (32B), merkle_root (32B)`, little-endian, in exactly this
order.  `buffer_write` copies `HASH_SIZE` bytes of each hash; the hashes of
every reachable block are exactly 32 bytes, carried as hypotheses where they
matter. -/
def serialize_block_header (block : Block) : List Nat :=
  serialize_uint32 block.version ++
  serialize_uint32 block.timestamp ++
  serialize_uint32 block.nonce ++
  serialize_uint32 block.bits ++
  serialize_uint64 block.cumulative_emission ++
  block.previous_hash ++
  block.merkle_root

/-- Embeds `compute_block_hash` of src/core/block.c: serializes the header and
hashes the first `BLOCK_HEADER_SIZE` bytes of the buffer with
`crypto_hash_sha256d`. -/
def compute_block_hash (p : Params) (block : Block) : List Nat :=
  p.H ((serialize_block_header block).take BLOCK_HEADER_SIZE)

/-- Embeds `get_block_header_size` of src/core/block.c: `BLOCK_HEADER_SIZE` plus
the serialized size of each of the block's `transaction_count`
transactions. -/
def get_block_header_size (block : Block) : Nat :=
  BLOCK_HEADER_SIZE +
    ((block.transactions.take block.transaction_count).map get_tx_header_size).sum

/-- Embeds `valid_block_hash` of src/core/block.c: the stored hash must equal the
recomputed header hash and satisfy the proof-of-work target. -/
def valid_block_hash (p : Params) (block : Block) : Bool :=
  compare_hash (compute_block_hash p block) block.hash &&
  check_proof_of_work p.maxTarget block.hash block.bits

/-- Embeds `compute_merkle_root` of src/core/block.c: recompute every txid with
`compute_tx_id` (indexing `transactions[i]` for `i < transaction_count`;
the C code asserts each entry non-NULL, modelled by the `Option`), build the
Merkle tree over them, and return the root hash. -/
def compute_merkle_root (p : Params) (block : Block) : Option (List Nat) :=
  ((List.range block.transaction_count).mapM
      (fun i => (block.transactions[i]?).map (compute_tx_id p))).bind
    fun hashes => (construct_merkle_tree_from_leaves p.H hashes).map MerkleNode.hash

/-- Embeds `valid_merkle_root` of src/core/block.c: the recomputed root must equal
the stored `merkle_root`. -/
def valid_merkle_root (p : Params) (block : Block) : Bool :=
  match compute_merkle_root p block with
  | none => false
  | some root => compare_hash root block.merkle_root

/-- Embeds the innermost double loop of `valid_block` (src/core/block.c lines
164-186): no input of `first_tx` may reference the same
`(prev_txid, prev_vout)` as an input of `second_tx`. -/
def no_shared_txin (first_tx second_tx : Transaction) : Bool :=
  first_tx.txins.all fun txin_first =>
    second_tx.txins.all fun txin_second =>
      !(compare_hash txin_first.transaction txin_second.transaction &&
        decide (txin_first.txout_index = txin_second.txout_index))

/-- Embeds the body of `valid_block`'s inner transaction loop (src/core/block.c
lines 145-187): for every index `j ≠ i` below `transaction_count`, the two
transactions must not share a txid and must not share an input outpoint. -/
def valid_block_inner_loop (block : Block) (first_tx : Transaction) (i : Nat) : Bool :=
  (List.range block.transaction_count).all fun j =>
    if i = j then true
    else
      match block.transactions[j]? with
      | none => false
      | some second_tx =>
        !(compare_hash first_tx.id second_tx.id) && no_shared_txin first_tx second_tx

/-- Embeds `valid_block`'s outer transaction loop (src/core/block.c lines 125-188):
every transaction must be valid, only index 0 may be a coinbase, and every
pair of distinct transactions passes the inner loop. -/
def valid_block_outer_loop (p : Params) (block : Block) : Bool :=
  (List.range block.transaction_count).all fun i =>
    match block.transactions[i]? with
    | none => false
    | some first_tx =>
      valid_transaction p first_tx &&
      !(decide (i ≠ 0) && is_coinbase_tx first_tx) &&
      valid_block_inner_loop block first_tx i

/-- Embeds `valid_block` of src/core/block.c, in the order of the C checks:
timestamp drift, at least one transaction, `transactions[0]` is a coinbase,
the transaction loops, the header-size bound, the block hash (with
proof-of-work), and the Merkle root.  A NULL transaction pointer (an index
with no entry) fails the corresponding check, as in the C code. -/
def valid_block (p : Params) (block : Block) : Bool :=
  valid_block_timestamp p block &&
  decide (1 ≤ block.transaction_count) &&
  (match block.transactions[0]? with
   | none => false
   | some coinbase_tx => is_coinbase_tx coinbase_tx) &&
  valid_block_outer_loop p block &&
  decide (get_block_header_size block ≤ p.maxBlockSize) &&
  valid_block_hash p block &&
  valid_merkle_root p block

/-- Embeds `validate_block_signatures` of src/core/block.c: iterates the block's
transactions and returns 1 as soon as some transaction's
`validate_tx_signatures` reports a failure, 0 when none does.  The value
follows the same error-code convention as its callee: 0 means every
signature in the block verified. -/
def validate_block_signatures (p : Params) (block : Block) : Nat :=
  if (block.transactions.take block.transaction_count).all
      (fun tx => validate_tx_signatures p tx = 0)
  then 0 else 1

/-- Embeds `compare_block` of src/core/block.c: compares the scalar and hash fields
and then each pair of transactions below `transaction_count`. -/
def compare_block (block other_block : Block) : Bool :=
  (decide (block.version = other_block.version) &&
   compare_hash block.previous_hash other_block.previous_hash &&
   compare_hash block.hash other_block.hash &&
   decide (block.timestamp = other_block.timestamp) &&
   decide (block.nonce = other_block.nonce) &&
   decide (block.bits = other_block.bits) &&
   decide (block.cumulative_emission = other_block.cumulative_emission) &&
   compare_hash block.merkle_root other_block.merkle_root &&
   decide (block.transaction_count = other_block.transaction_count)) &&
  ((block.transactions.take block.transaction_count).zip
      (other_block.transactions.take block.transaction_count)).all
    fun pair => compare_transaction pair.1 pair.2

/-- Embeds `compare_with_genesis_block` of src/core/block.c: writes the recomputed
header hash into `block->hash` and into the genesis block's `hash` field
before comparing the two blocks.  The process-wide genesis singleton
(`get_genesis_block` of the missing genesis.c) is passed explicitly; the
result carries the comparison outcome together with both mutated blocks. -/
def compare_with_genesis_block (p : Params) (block genesis_block : Block) :
    Bool × Block × Block :=
  let block2 := { block with hash := compute_block_hash p block }
  let genesis2 := { genesis_block with hash := compute_block_hash p genesis_block }
  (compare_block block2 genesis2, block2, genesis2)

/-- Embeds `serialize_block` of src/core/block.c: `version, previous_hash
(length-prefixed 32B), hash (length-prefixed 32B), timestamp, nonce, bits,
cumulative_emission, merkle_root (length-prefixed 32B), transaction_count
(u32)`.  No transaction bytes are written; serializing the transactions is
the separate `serialize_transactions_from_block`. -/
def serialize_block (block : Block) : List Nat :=
  serialize_uint32 block.version ++
  buffer_write_bytes32 block.previous_hash HASH_SIZE ++
  buffer_write_bytes32 block.hash HASH_SIZE ++
  serialize_uint32 block.timestamp ++
  serialize_uint32 block.nonce ++
  serialize_uint32 block.bits ++
  serialize_uint64 block.cumulative_emission ++
  buffer_write_bytes32 block.merkle_root HASH_SIZE ++
  serialize_uint32 block.transaction_count

/-- Embeds `deserialize_block` of src/core/block.c: reads back exactly the fields
`serialize_block` wrote, failing on any short read.  The C code starts from
`make_block` and overwrites every scalar and hash field with the bytes read;
`transactions` stays NULL (the empty list here) and only
`transaction_count` is populated from the wire.  Returns the block and the
unread remainder of the buffer. -/
def deserialize_block (l : List Nat) : Option (Block × List Nat) := do
  let (version, l) ← buffer_read_uint32 l
  let (previous_hash, l) ← buffer_read_bytes32 l
  let (hash, l) ← buffer_read_bytes32 l
  let (timestamp, l) ← buffer_read_uint32 l
  let (nonce, l) ← buffer_read_uint32 l
  let (bits, l) ← buffer_read_uint32 l
  let (cumulative_emission, l) ← buffer_read_uint64 l
  let (merkle_root, l) ← buffer_read_bytes32 l
  let (transaction_count, l) ← buffer_read_uint32 l
  some (⟨version, previous_hash, hash, timestamp, nonce, bits,
         cumulative_emission, merkle_root, transaction_count, []⟩, l)

/-- Embeds `block_to_serialized` of src/core/block.c: serializes the block into a
fresh byte buffer (the data plus its length; the length is the list's). -/
def block_to_serialized (block : Block) : List Nat :=
  serialize_block block

/-- Embeds `block_from_serialized` of src/core/block.c: deserializes a block from a
byte buffer, returning NULL (`none`) on failure; leftover bytes after the
block fields are ignored, exactly as the C iterator is simply discarded. -/
def block_from_serialized (data : List Nat) : Option Block :=
  (deserialize_block data).map (fun r => r.1)

/-! ### Deep copy (src/core/block.c, `copy_block_transactions` / `copy_block`)

`copy_transaction` lives in the missing transaction.c, so its return value
is taken as an arbitrary function `ct` of its two arguments: the source
transaction and the value of the pointer it is handed.  What src/core/block.c
itself fixes is the calling convention: the local receiving pointer
`other_tx` is initialised to NULL and passed BY VALUE, so no behaviour of
`copy_transaction` can make the caller's `other_tx` non-NULL. -/

/-- Observable outcome of a copy operation: a successful return of 0, an
error return of 1, or a failed `assert`, which aborts the process. -/
inductive CopyResult where
  | success
  | failure
  | assertFailure
deriving DecidableEq

/-- Embeds the transaction-copy loop of `copy_block_transactions` (src/core/block.c
lines 696-713).  For each source transaction: `transaction_t *other_tx =
NULL;` then `copy_transaction(tx, other_tx)` — the pointer is passed by
value, so the local still holds NULL afterwards — then a nonzero return is
an error return of 1, and otherwise `assert(other_tx != NULL)` is
evaluated on the never-written local. -/
def copy_txs_loop (ct : Transaction → Option Transaction → Nat) :
    List Transaction → CopyResult
  | [] => .success
  | tx :: rest =>
    let other_tx : Option Transaction := none
    if ct tx other_tx ≠ 0 then .failure
    else if other_tx = none then .assertFailure
    else copy_txs_loop ct rest

/-- Embeds `copy_block_transactions` of src/core/block.c: frees the destination's
transactions (no observable effect on the result), then, when the source
block has a positive `transaction_count` and a non-NULL transaction array,
runs the copy loop over the source's transactions. -/
def copy_block_transactions (ct : Transaction → Option Transaction → Nat)
    (block : Block) : CopyResult :=
  if 0 < block.transaction_count ∧ block.transactions ≠ [] then
    copy_txs_loop ct (block.transactions.take block.transaction_count)
  else .success

/-- Embeds `copy_block` of src/core/block.c: copies every scalar and hash field
into the destination, then runs `copy_block_transactions` (an error there is
returned as 1), then compares source and destination, returning 1 when the
comparison fails and 0 on success. -/
def copy_block (ct : Transaction → Option Transaction → Nat)
    (block other_block : Block) : CopyResult :=
  let dest := { other_block with
                version := block.version,
                previous_hash := block.previous_hash,
                hash := block.hash,
                timestamp := block.timestamp,
                nonce := block.nonce,
                bits := block.bits,
                cumulative_emission := block.cumulative_emission,
                merkle_root := block.merkle_root,
                transaction_count := block.transaction_count }
  match copy_block_transactions ct block with
  | .success => if compare_block block dest then .success else .failure
  | r => r

/-! ### Derived notions and concrete inputs used by the theorems -/

/-- Collects the `(prev_txid, prev_vout)` pairs of every input of every transaction
of a block, in order: the multiset spec section 8 quantifies over. -/
def block_outpoints (b : Block) : List (List Nat × Nat) :=
  b.transactions.flatMap (fun tx => tx.txins.map txin_outpoint)

/-- Well-formedness of a block as a C value: a non-empty transaction list
whose count field matches, machine-width scalars, and 32-byte hashes. -/
def well_formed_block (b : Block) : Prop :=
  b.transactions ≠ [] ∧
  b.transaction_count = b.transactions.length ∧
  b.version < 2 ^ 32 ∧ b.timestamp < 2 ^ 32 ∧ b.nonce < 2 ^ 32 ∧ b.bits < 2 ^ 32 ∧
  b.cumulative_emission < 2 ^ 64 ∧ b.transaction_count < 2 ^ 32 ∧
  b.previous_hash.length = 32 ∧ b.hash.length = 32 ∧ b.merkle_root.length = 32

instance (b : Block) : Decidable (well_formed_block b) := by
  unfold well_formed_block
  infer_instance

/-- Thirty-two bytes of `0x01`. -/
def ones32 : List Nat := List.replicate 32 1

/-- Thirty-two bytes of `0x02`. -/
def twos32 : List Nat := List.replicate 32 2

/-- A concrete coinbase transaction: one sentinel input, one output. -/
def txW : Transaction :=
  { id := zero_tx_hash,
    txins := [{ transaction := zero_tx_hash, txout_index := 4294967295,
                signature := List.replicate 64 0, public_key := List.replicate 32 0 }],
    txouts := [{ amount := 1, address := [] }] }

/-- A concrete block holding the single coinbase transaction `txW`, built so
that it satisfies `valid_block` under the parameters `pW`. -/
def bW : Block :=
  { version := 1, previous_hash := zero_tx_hash, hash := zero_tx_hash,
    timestamp := 0, nonce := 0, bits := 0, cumulative_emission := 0,
    merkle_root := zero_tx_hash, transaction_count := 1, transactions := [txW] }

/-- Concrete parameters under which `bW` is a valid block: the hash function
is constantly the zero hash, signatures always verify, and the size bound is
ample. -/
def pW : Params :=
  { H := fun _ => zero_tx_hash, verify := fun _ _ _ => true,
    now := 0, maxBlockSize := 1000000, maxTarget := 0 }

/-- Concrete behaviour of the missing `copy_transaction` that always
reports success (returns 0). -/
def ctW : Transaction → Option Transaction → Nat := fun _ _ => 0

/-- Concrete 64-byte signature accepted by the verifier of `pC7`. -/
def goodSigC7 : List Nat := List.replicate 64 0

/-- Signature `goodSigC7` with one bit of its first byte flipped. -/
def badSigC7 : List Nat := 1 :: List.replicate 63 0

/-- A concrete non-coinbase transaction spending outpoint `(twos32, 0)`,
signed with `goodSigC7`. -/
def tx1C7 : Transaction :=
  { id := ones32,
    txins := [{ transaction := twos32, txout_index := 0,
                signature := goodSigC7, public_key := List.replicate 32 3 }],
    txouts := [{ amount := 1, address := [] }] }

/-- Transaction `tx1C7` with its signature bit-flipped; its sign preimage, and hence its
txid, is unchanged. -/
def tx1C7bad : Transaction :=
  { id := ones32,
    txins := [{ transaction := twos32, txout_index := 0,
                signature := badSigC7, public_key := List.replicate 32 3 }],
    txouts := [{ amount := 1, address := [] }] }

/-- Parameters under which the two-transaction block `bC7` is valid: the
hash function distinguishes `tx1C7`'s sign preimage (mapped to `ones32`)
from everything else (mapped to the zero hash), and the verifier accepts
exactly the signature `goodSigC7`. -/
def pC7 : Params :=
  { H := fun l => if l = get_tx_sign_header tx1C7 then ones32 else zero_tx_hash,
    verify := fun sig _ _ => decide (sig = goodSigC7),
    now := 0, maxBlockSize := 1000000, maxTarget := 0 }

/-- A concrete valid block with a coinbase and one signed non-coinbase
transaction. -/
def bC7 : Block :=
  { version := 1, previous_hash := zero_tx_hash, hash := zero_tx_hash,
    timestamp := 0, nonce := 0, bits := 0, cumulative_emission := 0,
    merkle_root := zero_tx_hash, transaction_count := 2, transactions := [txW, tx1C7] }

/-- Block `bC7` with the non-coinbase signature bit-flipped and nothing else
changed. -/
def bC7bad : Block :=
  { version := 1, previous_hash := zero_tx_hash, hash := zero_tx_hash,
    timestamp := 0, nonce := 0, bits := 0, cumulative_emission := 0,
    merkle_root := zero_tx_hash, transaction_count := 2, transactions := [txW, tx1C7bad] }

/-! ### Helper lemmas -/

theorem collapse_merkle_nodes_length (H : List Nat → List Nat) (nodes : List MerkleNode) :
    (collapse_merkle_nodes H nodes).length = (nodes.length + 1) / 2 := by
  induction nodes using collapse_merkle_nodes.induct H with
  | case1 a b rest ih => simp [collapse_merkle_nodes, ih]; omega
  | case2 a => simp [collapse_merkle_nodes]
  | case3 => simp [collapse_merkle_nodes]

/-- Fuel equal to the node count is always enough for the collapse loop to
reach a single node, so the fuelled loop agrees with C's unbounded while
loop on every input the code can reach. -/
theorem collapse_iter_length_le_one (H : List Nat → List Nat) (fuel : Nat)
    (nodes : List MerkleNode) (hne : nodes ≠ []) (hfuel : nodes.length ≤ fuel) :
    (collapse_iter H fuel nodes).length = 1 := by
  induction fuel generalizing nodes with
  | zero =>
    have := List.length_pos.mpr hne
    omega
  | succ n ih =>
    rw [collapse_iter]
    by_cases h : nodes.length > 1
    · simp only [h, if_true]
      have hlen := collapse_merkle_nodes_length H nodes
      apply ih
      · intro hnil
        rw [hnil] at hlen
        simp at hlen
        omega
      · omega
    · simp only [h, if_false]
      have := List.length_pos.mpr hne
      omega

theorem buffer_read_uint32_append (n : Nat) (rest : List Nat) (h : n < 2 ^ 32) :
    buffer_read_uint32 (serialize_uint32 n ++ rest) = some (n, rest) := by
  simp only [serialize_uint32, List.cons_append, List.nil_append, buffer_read_uint32,
    Option.some.injEq, Prod.mk.injEq, and_true]
  omega

theorem buffer_read_uint64_append (n : Nat) (rest : List Nat) (h : n < 2 ^ 64) :
    buffer_read_uint64 (serialize_uint64 n ++ rest) = some (n, rest) := by
  simp only [serialize_uint64, List.cons_append, List.nil_append, buffer_read_uint64,
    Option.some.injEq, Prod.mk.injEq, and_true]
  omega

theorem buffer_read_bytes32_append (bytes rest : List Nat) (h : bytes.length = 32) :
    buffer_read_bytes32 (buffer_write_bytes32 bytes HASH_SIZE ++ rest) = some (bytes, rest) := by
  have htake : bytes.take 32 = bytes := List.take_of_length_le (by omega)
  rw [buffer_write_bytes32, HASH_SIZE, htake, List.append_assoc, buffer_read_bytes32,
    buffer_read_uint32_append 32 _ (by norm_num), Option.some_bind, buffer_read_bytes]
  rw [if_pos (by simp [h])]
  have h32 : (32 : Nat) = bytes.length := h.symm
  simp only [h32]
  simp

/-! ### C5 and C6: Merkle shape -/

/-- C5: for any three txids `a`, `b`, `c`, the Merkle root over `[a, b, c]`
is `H(H(a ++ b) ++ H(c ++ c))` with `H = sha256d`: the odd node at the first
level is paired with itself and its hash duplicated into its parent. -/
theorem merkle_root_of_three (H : List Nat → List Nat) (a b c : List Nat) :
    (construct_merkle_tree_from_leaves H [a, b, c]).map MerkleNode.hash =
      some (H (H (a ++ b) ++ H (c ++ c))) :=
  rfl

/-- C6: for any one-element list of txids the Merkle root is the sole txid,
and leaf construction wraps every txid unchanged (no hashing at leaf
level). -/
theorem merkle_root_single_leaf (H : List Nat → List Nat) (a : List Nat) :
    (construct_merkle_tree_from_leaves H [a]).map MerkleNode.hash = some a ∧
    ∀ hashes : List (List Nat),
      (construct_merkle_leaves_from_hashes hashes).map MerkleNode.hash = hashes := by
  refine ⟨rfl, fun hashes => ?_⟩
  simp [construct_merkle_leaves_from_hashes, List.map_map, Function.comp_def, MerkleNode.hash]

/-! ### C8: timestamp boundary -/

/-- C8: a block stamped exactly `now + MAX_FUTURE_BLOCK_TIME` passes
`valid_block_timestamp` and a block stamped one second later fails it: the
comparison with the future-drift bound is non-strict. -/
theorem valid_block_timestamp_boundary (p : Params) (b : Block) :
    valid_block_timestamp p { b with timestamp := p.now + MAX_FUTURE_BLOCK_TIME } = true ∧
    valid_block_timestamp p { b with timestamp := p.now + MAX_FUTURE_BLOCK_TIME + 1 } = false := by
  constructor <;> simp [valid_block_timestamp]

/-! ### C1: block serialization round trip -/

/-- C1 (amended): for every well-formed block, `block_from_serialized`
applied to `block_to_serialized` succeeds and restores every header field
and `transaction_count`, but NOT the transactions: `serialize_block` writes
no transaction bytes and `deserialize_block` leaves the transaction array
NULL, so the round trip returns the block with an empty transaction list. -/
theorem block_serialized_roundtrip_header_only (b : Block) (wf : well_formed_block b) :
    block_from_serialized (block_to_serialized b) = some { b with transactions := [] } := by
  obtain ⟨-, -, hv, ht, hn, hb, hc, hcnt, hp, hh, hm⟩ := wf
  have hlast : serialize_uint32 b.transaction_count =
      serialize_uint32 b.transaction_count ++ ([] : List Nat) := by simp
  rw [block_from_serialized, block_to_serialized, serialize_block, deserialize_block]
  simp only [List.append_assoc]
  rw [hlast]
  simp only [List.append_assoc, buffer_read_uint32_append _ _ hv,
    buffer_read_bytes32_append _ _ hp, buffer_read_bytes32_append _ _ hh,
    buffer_read_uint32_append _ _ ht, buffer_read_uint32_append _ _ hn,
    buffer_read_uint32_append _ _ hb, buffer_read_uint64_append _ _ hc,
    buffer_read_bytes32_append _ _ hm, buffer_read_uint32_append _ _ hcnt,
    Option.bind_eq_bind, Option.some_bind, Option.map_some]
  rfl

set_option maxRecDepth 10000 in
/-- C1 counterexample: `bW` is well formed (one transaction), yet the round
trip does not return a block equal to `bW` — the transactions are not
included. -/
theorem block_serialized_roundtrip_not_full :
    well_formed_block bW ∧ block_from_serialized (block_to_serialized bW) ≠ some bW := by
  constructor
  · decide
  · decide

/-- C1 witness: the amended round trip evaluated on the concrete block
`bW`. -/
theorem block_serialized_roundtrip_header_only_witness :
    block_from_serialized (block_to_serialized bW) = some { bW with transactions := [] } :=
  block_serialized_roundtrip_header_only bW (by decide)

/-! ### C2: header layout and block hash -/

/-- C2 (amended): for every block with 32-byte hashes the serialized header
is exactly 88 bytes — `version, timestamp, nonce, bits (u32 LE each),
cumulative_emission (u64 LE), previous_hash (32B), merkle_root (32B)` total
4+4+4+4+8+32+32 = 88, not the spec's 92 — and `compute_block_hash` is
`sha256d` of exactly those bytes. -/
theorem serialize_block_header_layout (p : Params) (b : Block)
    (hp : b.previous_hash.length = 32) (hm : b.merkle_root.length = 32) :
    (serialize_block_header b).length = 88 ∧
    compute_block_hash p b = p.H (serialize_block_header b) := by
  have hlen : (serialize_block_header b).length = 88 := by
    simp [serialize_block_header, serialize_uint32, serialize_uint64, hp, hm]
  refine ⟨hlen, ?_⟩
  rw [compute_block_hash, BLOCK_HEADER_SIZE, List.take_of_length_le (by omega)]

/-- C2 counterexample: the serialized header of the concrete block `bW` is
88 bytes long, not 92. -/
theorem serialize_block_header_length_ne_92 :
    (serialize_block_header bW).length = 88 ∧ (serialize_block_header bW).length ≠ 92 := by
  constructor
  · decide
  · decide

/-- C2 witness: the amended layout property evaluated on the concrete block
`bW` under the concrete parameters `pW`. -/
theorem serialize_block_header_layout_witness :
    (serialize_block_header bW).length = 88 ∧
    compute_block_hash pW bW = pW.H (serialize_block_header bW) :=
  serialize_block_header_layout pW bW (by decide) (by decide)

/-! ### C9: copy_block cannot succeed -/

/-- C9: for every block with at least one transaction and every possible
behaviour of the missing `copy_transaction`, neither
`copy_block_transactions` nor `copy_block` can return success: the receiving
pointer is passed by value and stays NULL, so the loop either propagates
`copy_transaction`'s error return or, whenever `copy_transaction` reports
success, fails the `assert(other_tx != NULL)`. -/
theorem copy_block_cannot_succeed (ct : Transaction → Option Transaction → Nat)
    (block other_block : Block) (tx : Transaction) (rest : List Transaction)
    (hcount : 0 < block.transaction_count) (htxs : block.transactions = tx :: rest) :
    copy_block_transactions ct block ≠ CopyResult.success ∧
    copy_block ct block other_block ≠ CopyResult.success ∧
    (ct tx none = 0 → copy_block ct block other_block = CopyResult.assertFailure) := by
  have hne : block.transactions ≠ [] := by simp [htxs]
  have htake : block.transactions.take block.transaction_count =
      tx :: rest.take (block.transaction_count - 1) := by
    rw [htxs]
    cases hn : block.transaction_count with
    | zero => omega
    | succ n => simp
  have hloop : copy_block_transactions ct block =
      if ct tx none ≠ 0 then CopyResult.failure else CopyResult.assertFailure := by
    rw [copy_block_transactions, if_pos ⟨hcount, hne⟩, htake, copy_txs_loop]
    by_cases h0 : ct tx none = 0 <;> simp [h0]
  rw [copy_block, hloop]
  by_cases h0 : ct tx none = 0 <;> simp [h0]

/-- C9 witness: on the concrete single-transaction block `bW` with a
`copy_transaction` that always reports success (`ctW`), the copy ends in the
failed assertion, never in success. -/
theorem copy_block_cannot_succeed_witness :
    copy_block ctW bW bW = CopyResult.assertFailure :=
  (copy_block_cannot_succeed ctW bW bW txW [] (by decide) rfl).2.2 rfl

/-! ### C10: compare_with_genesis_block mutates its arguments -/

/-- C10: `compare_with_genesis_block` overwrites the `hash` field of the
block passed in, and of the genesis block, with the recomputed header hash
before comparing: the returned blocks are the inputs with exactly the `hash`
field replaced, so a block whose stored hash differs from its header hash
does not keep it through the comparison. -/
theorem compare_with_genesis_block_overwrites_hash (p : Params) (b g : Block) :
    (compare_with_genesis_block p b g).2.1 = { b with hash := compute_block_hash p b } ∧
    (compare_with_genesis_block p b g).2.2 = { g with hash := compute_block_hash p g } ∧
    (b.hash ≠ compute_block_hash p b →
      (compare_with_genesis_block p b g).2.1.hash ≠ b.hash) := by
    refine ⟨rfl, rfl, fun h => ?_⟩
    simpa [compare_with_genesis_block] using fun hh => h hh.symm

/-- C10 witness: a concrete block whose stored hash is `ones32` while its
recomputed header hash is the zero hash: the comparison does not leave the
hash field unchanged. -/
theorem compare_with_genesis_block_overwrites_hash_witness :
    (compare_with_genesis_block pW { bW with hash := ones32 } bW).2.1.hash ≠
      ({ bW with hash := ones32 } : Block).hash :=
  (compare_with_genesis_block_overwrites_hash pW { bW with hash := ones32 } bW).2.2 (by decide)

/-! ### Extraction lemmas for the validator -/

theorem valid_block_outer_of_valid (p : Params) (b : Block) (h : valid_block p b = true) :
    valid_block_outer_loop p b = true := by
  simp only [valid_block, Bool.and_eq_true] at h
  exact h.1.1.1.2

theorem valid_block_coinbase0 (p : Params) (b : Block) (h : valid_block p b = true) :
    ∃ cb, b.transactions[0]? = some cb ∧ is_coinbase_tx cb = true := by
  simp only [valid_block, Bool.and_eq_true] at h
  have hcb := h.1.1.1.1.2
  cases h0 : b.transactions[0]? with
  | none => rw [h0] at hcb; cases hcb
  | some cb => rw [h0] at hcb; exact ⟨cb, rfl, hcb⟩

/-- What `valid_block`'s transaction loops guarantee for the transaction at
index `i`: it is valid, only index 0 may hold a coinbase, and against every
other index the txids differ and no input outpoint is shared. -/
theorem valid_block_tx_spec (p : Params) (b : Block) (h : valid_block p b = true)
    (i : Nat) (hi : i < b.transaction_count) (tx : Transaction)
    (htx : b.transactions[i]? = some tx) :
    valid_transaction p tx = true ∧ (i ≠ 0 → is_coinbase_tx tx = false) ∧
    (∀ j, j < b.transaction_count → i ≠ j → ∀ tx2, b.transactions[j]? = some tx2 →
      tx.id ≠ tx2.id ∧ no_shared_txin tx tx2 = true) := by
  have houter := valid_block_outer_of_valid p b h
  rw [valid_block_outer_loop, List.all_eq_true] at houter
  have hbody := houter i (List.mem_range.mpr hi)
  rw [htx] at hbody
  simp only [Bool.and_eq_true] at hbody
  obtain ⟨⟨hvt, hmid⟩, hinner⟩ := hbody
  refine ⟨hvt, ?_, ?_⟩
  · intro hne
    cases hcb : is_coinbase_tx tx with
    | false => rfl
    | true =>
      rw [decide_eq_true hne, hcb] at hmid
      cases hmid
  · intro j hj hij tx2 htx2
    rw [valid_block_inner_loop, List.all_eq_true] at hinner
    have hpair := hinner j (List.mem_range.mpr hj)
    rw [if_neg hij, htx2] at hpair
    simp only [Bool.and_eq_true, Bool.not_eq_eq_eq_not, Bool.not_true] at hpair
    obtain ⟨hid, hsh⟩ := hpair
    refine ⟨?_, hsh⟩
    rw [compare_hash] at hid
    exact of_decide_eq_false hid

theorem is_coinbase_tx_singleton (tx : Transaction) (h : is_coinbase_tx tx = true) :
    ∃ txin, tx.txins = [txin] := by
  rw [is_coinbase_tx] at h
  cases htx : tx.txins with
  | nil => rw [htx] at h; cases h
  | cons a l =>
    cases l with
    | nil => exact ⟨a, rfl⟩
    | cons c l2 => rw [htx] at h; cases h

theorem valid_transaction_outpoints_nodup (p : Params) (tx : Transaction)
    (h : valid_transaction p tx = true) : (tx.txins.map txin_outpoint).Nodup := by
  simp only [valid_transaction, Bool.and_eq_true, Bool.or_eq_true] at h
  cases h.2 with
  | inl hcb =>
    obtain ⟨txin, htxin⟩ := is_coinbase_tx_singleton tx hcb
    rw [htxin]
    simp
  | inr hnd => exact of_decide_eq_true hnd

theorem valid_transaction_signatures_verify (p : Params) (tx : Transaction)
    (h : valid_transaction p tx = true) (hnc : is_coinbase_tx tx = false) :
    ∀ txin ∈ tx.txins,
      p.verify txin.signature (get_tx_sign_header tx) txin.public_key = true := by
  simp only [valid_transaction, Bool.and_eq_true, Bool.or_eq_true] at h
  cases h.1.2 with
  | inl hcb => rw [hnc] at hcb; cases hcb
  | inr hall =>
    rw [List.all_eq_true] at hall
    intro txin hm
    exact hall txin hm

/-! ### C4: coinbase position and uniqueness -/

/-- C4: in every block accepted by `valid_block` (with the count field
matching the transaction array, as in every C block) the transaction at
position 0 is a coinbase, no transaction at a positive position is a
coinbase, and exactly one transaction of the block is a coinbase. -/
theorem valid_block_coinbase_unique (p : Params) (b : Block)
    (hc : b.transaction_count = b.transactions.length) (h : valid_block p b = true) :
    (∃ cb, b.transactions[0]? = some cb ∧ is_coinbase_tx cb = true) ∧
    (∀ i tx, 0 < i → b.transactions[i]? = some tx → is_coinbase_tx tx = false) ∧
    b.transactions.countP (fun tx => is_coinbase_tx tx) = 1 := by
  obtain ⟨cb, hcb0, hcb⟩ := valid_block_coinbase0 p b h
  have hpos : ∀ i tx, 0 < i → b.transactions[i]? = some tx → is_coinbase_tx tx = false := by
    intro i tx hipos htx
    have hilen : i < b.transactions.length := (List.getElem?_eq_some.mp htx).1
    exact (valid_block_tx_spec p b h i (by omega) tx htx).2.1 (by omega)
  refine ⟨⟨cb, hcb0, hcb⟩, hpos, ?_⟩
  obtain ⟨rest, hrest⟩ : ∃ rest, b.transactions = cb :: rest := by
    cases hl : b.transactions with
    | nil => rw [hl] at hcb0; cases hcb0
    | cons x xs =>
      rw [hl] at hcb0
      simp only [List.getElem?_cons_zero, Option.some.injEq] at hcb0
      exact ⟨xs, by rw [hcb0]⟩
  rw [hrest, List.countP_cons_of_pos _ _ hcb]
  have hrest0 : rest.countP (fun tx => is_coinbase_tx tx) = 0 := by
    rw [List.countP_eq_zero]
    intro tx hm
    obtain ⟨j, hj, hgj⟩ := List.mem_iff_getElem.mp hm
    have : b.transactions[j + 1]? = some tx := by
      rw [hrest, List.getElem?_cons_succ, List.getElem?_eq_getElem hj, hgj]
    have := hpos (j + 1) tx (by omega) this
    simp [this]
  rw [hrest0]

/-- C4 witness: the concrete valid block `bW` has exactly one coinbase. -/
theorem valid_block_coinbase_unique_witness :
    bW.transactions.countP (fun tx => is_coinbase_tx tx) = 1 :=
  (valid_block_coinbase_unique pW bW (by decide) (by decide)).2.2

/-! ### C3: no duplicate outpoints in a valid block -/

/-- C3: in every block accepted by `valid_block` (with the count field
matching the transaction array) the list of `(prev_txid, prev_vout)` pairs
over all inputs of all transactions has no duplicate: `valid_block`'s cross-
transaction loop separates inputs of distinct transactions, and
`valid_transaction` (rule 6, with the coinbase's single input) separates two
inputs of the same transaction. -/
theorem valid_block_no_duplicate_outpoints (p : Params) (b : Block)
    (hc : b.transaction_count = b.transactions.length) (h : valid_block p b = true) :
    (block_outpoints b).Nodup := by
  rw [block_outpoints, List.nodup_flatMap]
  constructor
  · intro tx hmem
    obtain ⟨i, hi, hgi⟩ := List.mem_iff_getElem.mp hmem
    have htx : b.transactions[i]? = some tx := by rw [List.getElem?_eq_getElem hi, hgi]
    exact valid_transaction_outpoints_nodup p tx
      (valid_block_tx_spec p b h i (by omega) tx htx).1
  · rw [List.pairwise_iff_getElem]
    intro i j hi hj hij
    have hti : b.transactions[i]? = some b.transactions[i] := List.getElem?_eq_getElem hi
    have htj : b.transactions[j]? = some b.transactions[j] := List.getElem?_eq_getElem hj
    have hspec := (valid_block_tx_spec p b h i (by omega) _ hti).2.2 j (by omega)
      (by omega) _ htj
    obtain ⟨-, hsh⟩ := hspec
    rw [no_shared_txin, List.all_eq_true] at hsh
    simp only [Function.onFun]
    intro x hxi hxj
    obtain ⟨a, hai, hax⟩ := List.mem_map.mp hxi
    obtain ⟨c, hcj, hcx⟩ := List.mem_map.mp hxj
    have hout : txin_outpoint a = txin_outpoint c := hax.trans hcx.symm
    have hac : a.transaction = c.transaction ∧ a.txout_index = c.txout_index := by
      simp only [txin_outpoint, Prod.mk.injEq] at hout
      exact hout
    have hinner := hsh a hai
    rw [List.all_eq_true] at hinner
    have h2 := hinner c hcj
    have htrue : (compare_hash a.transaction c.transaction &&
        decide (a.txout_index = c.txout_index)) = true := by
      rw [compare_hash, decide_eq_true hac.1, decide_eq_true hac.2]
      rfl
    rw [htrue] at h2
    cases h2

/-- C3 witness: the outpoint list of the concrete valid block `bW` is
duplicate-free. -/
theorem valid_block_no_duplicate_outpoints_witness :
    valid_block pW bW = true ∧ (block_outpoints bW).Nodup :=
  ⟨by decide, valid_block_no_duplicate_outpoints pW bW (by decide) (by decide)⟩

/-! ### C7: block signature validation -/

theorem validate_tx_signatures_eq_zero (p : Params) (tx : Transaction)
    (hnc : is_coinbase_tx tx = false) :
    validate_tx_signatures p tx = 0 ↔
      ∀ txin ∈ tx.txins,
        p.verify txin.signature (get_tx_sign_header tx) txin.public_key = true := by
  rw [validate_tx_signatures, if_neg (by simp [hnc])]
  constructor
  · intro h0 txin hm
    by_cases hall :
        (tx.txins.all fun txin => decide (validate_txin_signature p tx txin = 0)) = true
    · have hz := of_decide_eq_true (List.all_eq_true.mp hall txin hm)
      rw [validate_txin_signature] at hz
      by_cases hv : p.verify txin.signature (get_tx_sign_header tx) txin.public_key = true
      · exact hv
      · rw [if_neg hv] at hz; cases hz
    · rw [if_neg hall] at h0; cases h0
  · intro hv
    have hall :
        (tx.txins.all fun txin => decide (validate_txin_signature p tx txin = 0)) = true := by
      rw [List.all_eq_true]
      intro txin hm
      apply decide_eq_true
      rw [validate_txin_signature, if_pos (hv txin hm)]
    rw [if_pos hall]

/-- C7 (amended): the scalar returned by `validate_block_signatures` follows
the error-code convention of its libsodium-backed callee, the opposite of
the claim's boolean reading: it is 0 — not a C true — exactly when every
non-coinbase transaction input's signature verifies, and 1 when some
signature fails, so flipping a bit of a verifying signature makes it return
1.  Moreover signature checks are not separate from `valid_block`:
`valid_transaction` verifies every non-coinbase input's signature (spec
section 4.3 rule 5), so a block accepted by `valid_block` has all its
non-coinbase signatures verifying, and flipping one of them flips
`valid_block` to false. -/
theorem validate_block_signatures_error_code (p : Params) (b : Block)
    (hc : b.transaction_count = b.transactions.length) :
    (validate_block_signatures p b = 0 ↔
      ∀ tx ∈ b.transactions, is_coinbase_tx tx = false →
        ∀ txin ∈ tx.txins,
          p.verify txin.signature (get_tx_sign_header tx) txin.public_key = true) ∧
    (valid_block p b = true →
      ∀ tx ∈ b.transactions, is_coinbase_tx tx = false →
        ∀ txin ∈ tx.txins,
          p.verify txin.signature (get_tx_sign_header tx) txin.public_key = true) := by
  have htake : b.transactions.take b.transaction_count = b.transactions := by
    rw [hc, List.take_length]
  constructor
  · rw [validate_block_signatures, htake]
    by_cases hall :
        (b.transactions.all fun tx => decide (validate_tx_signatures p tx = 0)) = true
    · rw [if_pos hall]
      refine ⟨fun _ tx hm hnc txin htxin => ?_, fun _ => rfl⟩
      have hz := of_decide_eq_true (List.all_eq_true.mp hall tx hm)
      exact (validate_tx_signatures_eq_zero p tx hnc).mp hz txin htxin
    · rw [if_neg hall]
      constructor
      · intro h0; cases h0
      · intro hP
        exfalso
        apply hall
        rw [List.all_eq_true]
        intro tx hm
        apply decide_eq_true
        cases hcb : is_coinbase_tx tx with
        | true => rw [validate_tx_signatures, if_pos (by simp [hcb])]
        | false => exact (validate_tx_signatures_eq_zero p tx hcb).mpr (hP tx hm hcb)
  · intro hvb tx hmem hnc txin htxin
    obtain ⟨i, hi, hgi⟩ := List.mem_iff_getElem.mp hmem
    have htx : b.transactions[i]? = some tx := by rw [List.getElem?_eq_getElem hi, hgi]
    have hvt := (valid_block_tx_spec p b hvb i (by omega) tx htx).1
    exact valid_transaction_signatures_verify p tx hvt hnc txin htxin

set_option maxRecDepth 10000 in
/-- C7 counterexample: in the concrete two-transaction block `bC7`, every
signature verifies yet `validate_block_signatures` returns 0 (C false), and
after flipping one bit of the non-coinbase signature (`bC7bad`)
`validate_block_signatures` returns 1 (C true) while `valid_block` flips
from true to false — signatures are neither reported with the claimed
polarity nor separate from `valid_block`. -/
theorem signature_flip_changes_valid_block :
    valid_block pC7 bC7 = true ∧ valid_block pC7 bC7bad = false ∧
    validate_block_signatures pC7 bC7 = 0 ∧ validate_block_signatures pC7 bC7bad = 1 := by
  refine ⟨by decide, by decide, by decide, by decide⟩

/-- C7 witness: the error-code characterisation evaluated on the concrete
block `bC7`, whose signatures all verify. -/
theorem validate_block_signatures_error_code_witness :
    validate_block_signatures pC7 bC7 = 0 :=
  (validate_block_signatures_error_code pC7 bC7 (by decide)).1.mpr (by decide)

end Vulkan
